import Mathlib

/-!
Verification of `ab_test_stats.py` (class `ABTestProportionsTool`).

The Python tool is embedded shallowly:

* a pandas `DataFrame` row becomes a `Row` (group label, positive rate as a
  rational, total count as an integer); Python floats are modelled as
  rationals;
* `calculate_counts` adds the derived `positive_count` column
  (`round(rate / 100 * total)`, numpy round-half-to-even);
* the external statistical routines (`statsmodels` `proportions_ztest` and
  `scipy` `chi2_contingency`) are not part of this repository.  Their
  irrational real-valued kernels are abstracted by a `StatPrims` record:
  the square root inside the pooled z statistic, the two-sided normal
  p-value as a function of the absolute z statistic, and the chi-square
  routine on a contingency table.  All theorems quantify over these
  primitives, so they hold in particular for the true real functions;
* exceptions become `Except ABError`.
-/

namespace ABTest

/-- One input row of the dataset: group label, positive rate (a percentage)
and total trial count. -/
structure Row where
  group : String
  rate : ℚ
  total : ℤ
deriving DecidableEq, Repr

/-- A row after `calculate_counts` has added the derived `positive_count`
column (source lines 30 to 31). -/
structure AggRow where
  group : String
  rate : ℚ
  total : ℤ
  positive_count : ℤ
deriving DecidableEq, Repr

/-- Errors raised by the tool.  `groupCardinalityError` models the
`ValueError` raised by `test_two_groups` on a group count other than two
(the specification's GroupCardinalityError); `computationError` models the
underlying statistical routine failing on a group with zero total trials
(division by zero, the specification's ComputationError); `indexError`
models `.values[0]` on an empty selection. -/
inductive ABError where
  | groupCardinalityError
  | computationError
  | indexError
deriving DecidableEq, Repr

/-- Modelled from the spec: the irrational kernels of the external
statistical libraries, abstracted as function parameters.  `sqrtFn` is the
square root inside the pooled standard error of `proportions_ztest`;
`pfun` is the two-sided normal p-value as a function of the absolute z
statistic (`2 * (1 - Phi |z|)`); `chifun` is `chi2_contingency` on the
observed table, returning the pair (statistic, p-value). -/
structure StatPrims where
  sqrtFn : ℚ → ℚ
  pfun : ℚ → ℚ
  chifun : List (ℤ × ℤ) → ℚ × ℚ

/-- Round half to even, the rounding used by `pandas.Series.round` (numpy
banker's rounding), composed with the integer cast of source line 31. -/
def roundHalfEven (q : ℚ) : ℤ :=
  let f := q.num / (q.den : ℤ)
  let frac := q - (f : ℚ)
  if frac < 1/2 then f
  else if 1/2 < frac then f + 1
  else if f % 2 = 0 then f else f + 1

/-- Embedding of `calculate_counts` (source lines 25 to 31): adds the derived
`positive_count` column, `round(rate / 100 * total)` cast to int.  The
source performs no input validation. -/
def calculate_counts (data : List Row) : List AggRow :=
  data.map (fun r => ⟨r.group, r.rate, r.total, roundHalfEven (r.rate / 100 * (r.total : ℚ))⟩)

/-- Embedding of `pandas.Series.unique`: the distinct values in order of first
appearance (each later duplicate of an earlier label is dropped). -/
def firstUniques : List String → List String
  | [] => []
  | g :: gs => g :: (firstUniques gs).filter (fun x => x ≠ g)

/-- Sum of `positive_count` over all rows of group `g`
(`data.groupby(group_col).sum()`, source line 44, and the `pivot_table`
aggregation of source lines 71 to 73). -/
def groupPosSum (data : List AggRow) (g : String) : ℤ :=
  ((data.filter (fun r => r.group = g)).map (fun r => r.positive_count)).sum

/-- Sum of the total column over all rows of group `g`. -/
def groupTotSum (data : List AggRow) (g : String) : ℤ :=
  ((data.filter (fun r => r.group = g)).map (fun r => r.total)).sum

/-- First row carrying group `g`
(`data[data[group_col] == g] ... .values[0]`, source lines 100 to 110). -/
def firstRow (data : List AggRow) (g : String) : Option AggRow :=
  (data.filter (fun r => r.group = g)).head?

/-- Modelled from the spec: the pooled two-proportion z statistic computed
by the external `statsmodels.stats.proportion.proportions_ztest`:
`z = (p1 - p2) / sqrt(pp * (1 - pp) * (1/n1 + 1/n2))` with pooled
proportion `pp = (c1 + c2) / (n1 + n2)`; the square root is the abstract
primitive `S.sqrtFn`. -/
def zStat (S : StatPrims) (c1 n1 c2 n2 : ℤ) : ℚ :=
  ((c1 : ℚ) / (n1 : ℚ) - (c2 : ℚ) / (n2 : ℚ)) /
    S.sqrtFn (((c1 : ℚ) + (c2 : ℚ)) / ((n1 : ℚ) + (n2 : ℚ)) *
      (1 - ((c1 : ℚ) + (c2 : ℚ)) / ((n1 : ℚ) + (n2 : ℚ))) *
      (1 / (n1 : ℚ) + 1 / (n2 : ℚ)))

/-- Modelled from the spec: the external `proportions_ztest` routine.  It
cannot produce a result for a group with zero total trials (division by
zero, the specification's ComputationError); otherwise it returns the z
statistic and the two-sided p-value, a function of the absolute z
statistic. -/
def proportions_ztest (S : StatPrims) (c1 n1 c2 n2 : ℤ) : Except ABError (ℚ × ℚ) :=
  if n1 = 0 ∨ n2 = 0 then .error .computationError
  else .ok (zStat S c1 n1 c2 n2, S.pfun |zStat S c1 n1 c2 n2|)

/-- One pairwise comparison row of the post-hoc result (source lines 115
to 121). -/
structure PairwiseResult where
  group1 : String
  group2 : String
  statistic : ℚ
  p_value : ℚ
  significance : String
deriving DecidableEq, Repr

/-- A test result record: the dict returned by `test_two_groups` and
`test_multiple_groups`; `pairwise` is `some` exactly when the source dict
carries the `pairwise` key. -/
structure TestResult where
  statistic : ℚ
  p_value : ℚ
  significance : String
  pairwise : Option (List PairwiseResult)
deriving DecidableEq, Repr

/-- The top-level record assembled by `run` (source line 139). -/
structure RunResult where
  test_used : String
  results : TestResult
deriving DecidableEq, Repr

/-- Embedding of `test_two_groups` (source lines 33 to 59).  Raises when the number of
distinct groups is not two; otherwise sums `positive_count` and the total
column per group, in first-appearance order, and runs the two-proportion
z-test.  The directional messages built on source lines 50 to 56 are dead
stores, unconditionally overwritten on line 58, so only the final label is
modelled. -/
def test_two_groups (S : StatPrims) (alpha : ℚ) (data : List AggRow) :
    Except ABError (String × TestResult) :=
  match firstUniques (data.map (fun r => r.group)) with
  | [g0, g1] =>
    match proportions_ztest S (groupPosSum data g0) (groupTotSum data g0)
        (groupPosSum data g1) (groupTotSum data g1) with
    | .error e => .error e
    | .ok sp =>
      .ok ("Proportions Z-Test",
        ⟨sp.1, sp.2, if sp.2 < alpha then "significant" else "not significant", none⟩)
  | _ => .error .groupCardinalityError

/-- Distinct group labels sorted lexicographically: the row index produced
by `pivot_table` (pandas sorts the index). -/
def sortedUniques (data : List AggRow) : List String :=
  List.insertionSort (fun a b => a ≤ b) (firstUniques (data.map (fun r => r.group)))

/-- The observed contingency table of `test_multiple_groups` (source lines
71 to 75): per sorted group label, summed positive count and negative
count `total - positive`. -/
def observedTable (data : List AggRow) : List (ℤ × ℤ) :=
  (sortedUniques data).map
    (fun g => (groupPosSum data g, groupTotSum data g - groupPosSum data g))

/-- Pairs in the order of `itertools.combinations(l, 2)` (source line 96). -/
def combinations2 {α : Type} : List α → List (α × α)
  | [] => []
  | x :: xs => xs.map (fun y => (x, y)) ++ combinations2 xs

/-- One pairwise z-test of `post_hoc_test` (source lines 100 to 121): the
counts come from the first matching row of each group, not from the
per-group sums. -/
def pairTest (S : StatPrims) (alpha : ℚ) (data : List AggRow) (g1 g2 : String) :
    Except ABError PairwiseResult :=
  match firstRow data g1, firstRow data g2 with
  | some r1, some r2 =>
    match proportions_ztest S r1.positive_count r1.total r2.positive_count r2.total with
    | .error e => .error e
    | .ok sp =>
      .ok ⟨g1, g2, sp.1, sp.2, if sp.2 < alpha then "significant" else "not significant"⟩
  | _, _ => .error .indexError

/-- The loop of `post_hoc_test` over a list of pairs: the first exception
aborts the loop and propagates. -/
def postHocAux (S : StatPrims) (alpha : ℚ) (data : List AggRow) :
    List (String × String) → Except ABError (List PairwiseResult)
  | [] => .ok []
  | q :: ps =>
    match pairTest S alpha data q.1 q.2 with
    | .error e => .error e
    | .ok r =>
      match postHocAux S alpha data ps with
      | .error e => .error e
      | .ok rest => .ok (r :: rest)

/-- Embedding of `post_hoc_test` (source lines 90 to 123): pairwise z-tests over all
unordered pairs of distinct labels in first-appearance order. -/
def post_hoc_test (S : StatPrims) (alpha : ℚ) (data : List AggRow) :
    Except ABError (List PairwiseResult) :=
  postHocAux S alpha data (combinations2 (firstUniques (data.map (fun r => r.group))))

/-- Embedding of `test_multiple_groups` (source lines 61 to 88): omnibus chi-square on
the group-by-outcome contingency table; when significant, the post-hoc
pairwise comparisons are attached under the `pairwise` key. -/
def test_multiple_groups (S : StatPrims) (alpha : ℚ) (data : List AggRow) :
    Except ABError (String × TestResult) :=
  let cp := S.chifun (observedTable data)
  let significance := if cp.2 < alpha then "significant" else "not significant"
  if cp.2 < alpha then
    match post_hoc_test S alpha data with
    | .error e => .error e
    | .ok pw => .ok ("Chi-Square Test", ⟨cp.1, cp.2, significance, some pw⟩)
  else
    .ok ("Chi-Square Test", ⟨cp.1, cp.2, significance, none⟩)

/-- Embedding of `run` (source lines 125 to 140): recompute the counts, dispatch on the
number of distinct groups, and wrap the outcome as the run-result record.
The second component is the state of `self.data` after the run: the only
mutation performed by the tool is `calculate_counts` writing the
`positive_count` column. -/
def run (S : StatPrims) (alpha : ℚ) (data : List Row) :
    Except ABError RunResult × List AggRow :=
  let agg := calculate_counts data
  let groups := firstUniques (agg.map (fun r => r.group))
  (if groups.length = 2 then
      (test_two_groups S alpha agg).map (fun nr => ⟨nr.1, nr.2⟩)
    else
      (test_multiple_groups S alpha agg).map (fun nr => ⟨nr.1, nr.2⟩),
   agg)

/-- Sample statistical primitives for concrete instantiations: identity
square root stand-in, identity p-value function, chi-square routine
returning p-value 0 (always significant). -/
def primsSig : StatPrims := ⟨fun q => q, fun z => z, fun _ => (0, 0)⟩

/-- Sample primitives whose chi-square p-value is 1 (never significant)
and whose z-test p-value is the constant 1. -/
def primsNonSig : StatPrims := ⟨fun q => q, fun _ => 1, fun _ => (0, 1)⟩

/-- Sample aggregated two-group dataset (scenario 1 of the spec). -/
def dataAB : List AggRow := [⟨"A", 10, 1000, 100⟩, ⟨"B", 15, 1000, 150⟩]

/-- The same two-group dataset with the rows in the opposite order. -/
def dataBA : List AggRow := [⟨"B", 15, 1000, 150⟩, ⟨"A", 10, 1000, 100⟩]

/-- Sample raw two-group dataset before aggregation. -/
def rowsAB : List Row := [⟨"A", 10, 1000⟩, ⟨"B", 15, 1000⟩]

/-- Sample raw three-group dataset before aggregation. -/
def rowsABC : List Row := [⟨"A", 5, 1000⟩, ⟨"B", 5, 1000⟩, ⟨"C", 25, 1000⟩]

/-- Sample aggregated three-group dataset (scenario 4 of the spec). -/
def dataABC : List AggRow := [⟨"A", 5, 1000, 50⟩, ⟨"B", 5, 1000, 50⟩, ⟨"C", 25, 1000, 250⟩]

/-- Sample aggregated dataset in which group A occurs in two rows. -/
def dataDup : List AggRow := [⟨"A", 30, 10, 3⟩, ⟨"A", 25, 20, 5⟩, ⟨"B", 35, 20, 7⟩]

/-- Sample aggregated two-group dataset in which group A has zero total
trials. -/
def dataZero : List AggRow := [⟨"A", 0, 0, 0⟩, ⟨"B", 50, 10, 5⟩]

/-- Sample aggregated three-group dataset in which group C has zero total
trials. -/
def dataZero3 : List AggRow := [⟨"A", 50, 10, 5⟩, ⟨"B", 40, 10, 4⟩, ⟨"C", 0, 0, 0⟩]

/-- Sample raw two-group dataset in which group A has zero total trials. -/
def rowsZero : List Row := [⟨"A", 0, 0⟩, ⟨"B", 50, 10⟩]

/-- Sample primitives with constant square-root stand-in 1 and constant
p-value 0, giving fully evaluable test results. -/
def primsTriv : StatPrims := ⟨fun _ => 1, fun _ => 0, fun _ => (0, 0)⟩

/-- Sample aggregated two-group dataset with zero positive counts, giving
a z statistic that simplifies to 0. -/
def dataTriv : List AggRow := [⟨"A", 0, 1, 0⟩, ⟨"B", 0, 1, 0⟩]

/-! Section Helper lemmas -/

/-- Membership in the deduplicated label list is membership in the raw
label list. -/
theorem mem_firstUniques {a : String} : ∀ {l : List String}, a ∈ firstUniques l ↔ a ∈ l
  | [] => Iff.rfl
  | g :: gs => by
    simp only [firstUniques, List.mem_cons, List.mem_filter, decide_eq_true_eq]
    by_cases h : a = g
    · simp [h]
    · simp [h, mem_firstUniques]

/-- The shared significance policy: the label is "significant" exactly when
the p-value is strictly below alpha. -/
theorem sig_label_iff (p alpha : ℚ) :
    ((if p < alpha then "significant" else "not significant") = "significant") ↔ p < alpha := by
  by_cases h : p < alpha
  · simp [h]
  · simp only [if_neg h]
    constructor
    · intro hc; exact absurd hc (by decide)
    · intro hc; exact absurd hc h

/-- Rounding an exact integer returns that integer. -/
theorem roundHalfEven_intCast (z : ℤ) : roundHalfEven ((z : ℚ)) = z := by
  simp [roundHalfEven, Rat.num_intCast, Rat.den_intCast]

/-- Anatomy of a successful two-group test: the test name, the absent
pairwise field, and the significance policy. -/
theorem test_two_groups_ok {S : StatPrims} {alpha : ℚ} {data : List AggRow}
    {nr : String × TestResult} (h : test_two_groups S alpha data = .ok nr) :
    nr.1 = "Proportions Z-Test" ∧ nr.2.pairwise = none ∧
      (nr.2.significance = "significant" ↔ nr.2.p_value < alpha) := by
  unfold test_two_groups at h
  split at h
  · split at h
    · exact Except.noConfusion h
    · cases h
      exact ⟨rfl, rfl, sig_label_iff _ _⟩
  · exact Except.noConfusion h

/-- Anatomy of a successful pairwise post-hoc comparison. -/
theorem pairTest_ok {S : StatPrims} {alpha : ℚ} {data : List AggRow} {g1 g2 : String}
    {r : PairwiseResult} (h : pairTest S alpha data g1 g2 = .ok r) :
    r.group1 = g1 ∧ r.group2 = g2 ∧
      (r.significance = "significant" ↔ r.p_value < alpha) := by
  unfold pairTest at h
  split at h
  · split at h
    · exact Except.noConfusion h
    · cases h
      exact ⟨rfl, rfl, sig_label_iff _ _⟩
  · exact Except.noConfusion h

/-- Anatomy of a successful post-hoc loop: one result per input pair, in
order, each obeying the significance policy. -/
theorem postHocAux_ok (S : StatPrims) (alpha : ℚ) (data : List AggRow) :
    ∀ (ps : List (String × String)) (L : List PairwiseResult),
      postHocAux S alpha data ps = .ok L →
      L.length = ps.length ∧ L.map (fun r => (r.group1, r.group2)) = ps ∧
      ∀ r ∈ L, (r.significance = "significant" ↔ r.p_value < alpha) := by
  intro ps
  induction ps with
  | nil =>
    intro L h
    unfold postHocAux at h
    cases h
    simp
  | cons q ps ih =>
    intro L h
    unfold postHocAux at h
    split at h
    · exact Except.noConfusion h
    · rename_i r hpair
      split at h
      · exact Except.noConfusion h
      · rename_i rest hrest
        cases h
        obtain ⟨h1, h2, h3⟩ := ih rest hrest
        obtain ⟨hg1, hg2, hsig⟩ := pairTest_ok hpair
        refine ⟨by simp [h1], ?_, ?_⟩
        · simp only [List.map_cons, h2, List.cons.injEq]
          exact ⟨by rw [hg1, hg2], trivial⟩
        · intro x hx
          rcases List.mem_cons.mp hx with hx | hx
          · subst hx; exact hsig
          · exact h3 x hx

/-- Anatomy of a successful multi-group test: the test name, the recorded
statistic and p-value, the significance policy, and the post-hoc gating on
the omnibus p-value. -/
theorem test_multiple_groups_ok {S : StatPrims} {alpha : ℚ} {data : List AggRow}
    {nr : String × TestResult} (h : test_multiple_groups S alpha data = .ok nr) :
    nr.1 = "Chi-Square Test" ∧
    nr.2.statistic = (S.chifun (observedTable data)).1 ∧
    nr.2.p_value = (S.chifun (observedTable data)).2 ∧
    (nr.2.significance = "significant" ↔ nr.2.p_value < alpha) ∧
    ((S.chifun (observedTable data)).2 < alpha →
      ∃ L, post_hoc_test S alpha data = .ok L ∧ nr.2.pairwise = some L) ∧
    (¬ (S.chifun (observedTable data)).2 < alpha → nr.2.pairwise = none) := by
  simp only [test_multiple_groups] at h
  split at h
  · rename_i hc
    split at h
    · exact Except.noConfusion h
    · rename_i pw hpw
      cases h
      exact ⟨rfl, rfl, rfl, iff_of_true rfl hc, fun _ => ⟨pw, hpw, rfl⟩,
        fun hnc => absurd hc hnc⟩
  · rename_i hc
    cases h
    have hne : ("not significant" : String) ≠ "significant" := by decide
    exact ⟨rfl, rfl, rfl, iff_of_false hne hc, fun hc2 => absurd hc2 hc,
      fun _ => rfl⟩

/-! Section C3: group-cardinality guard of the two-group tester -/

/-- C3: on any dataset whose number of distinct group labels is not
exactly 2, `test_two_groups` fails with the group-cardinality error.  The
statement quantifies over every statistical primitive record `S` and every
`alpha`: the error is the same constant for all of them, so it is raised
before (and independently of) any statistical computation; the embedding
is pure, so no state is mutated. -/
theorem two_groups_cardinality_guard (S : StatPrims) (alpha : ℚ) (data : List AggRow)
    (h : (firstUniques (data.map (fun r => r.group))).length ≠ 2) :
    test_two_groups S alpha data = .error .groupCardinalityError := by
  unfold test_two_groups
  split
  · rename_i g0 g1 heq
    exact absurd (by simp [heq] : (firstUniques (data.map (fun r => r.group))).length = 2) h
  · rfl

/-- Witness for C3 at a concrete three-group dataset. -/
theorem two_groups_cardinality_guard_witness :
    test_two_groups primsSig (1/2) dataABC = .error .groupCardinalityError :=
  two_groups_cardinality_guard primsSig (1/2) dataABC (by decide)

/-! Section C5: the aggregator performs no input validation -/

/-- C5 counterexample: a positive rate of 150 (outside [0, 100]) is
processed without any error: the aggregator returns normally and computes
positive_count 15 from the invalid value. -/
theorem aggregator_no_validation_cex :
    calculate_counts [⟨"A", 150, 10⟩] = [⟨"A", 150, 10, 15⟩] := by
  have h : roundHalfEven ((150 : ℚ) / 100 * 10) = 15 := by
    rw [show (150 : ℚ) / 100 * 10 = ((15 : ℤ) : ℚ) by norm_num]
    exact roundHalfEven_intCast 15
  simp [calculate_counts, h]

/-- C5 amended: the aggregator validates nothing.  Even when a row's rate
lies outside [0, 100] or its total is negative, `calculate_counts` returns
normally (its type has no error outcome) and silently computes
`positive_count = round(rate / 100 * total)` from the invalid values. -/
theorem aggregator_silently_computes (r : Row)
    (h : r.rate < 0 ∨ 100 < r.rate ∨ r.total < 0) :
    calculate_counts [r] =
      [⟨r.group, r.rate, r.total, roundHalfEven (r.rate / 100 * (r.total : ℚ))⟩] := by
  simp [calculate_counts]

/-- Witness for C5's amended statement at the rate-150 row. -/
theorem aggregator_silently_computes_witness :
    ((150 : ℚ) < 0 ∨ 100 < (150 : ℚ) ∨ (10 : ℤ) < 0) ∧
    calculate_counts [⟨"A", 150, 10⟩] =
      [⟨"A", 150, 10, roundHalfEven ((150 : ℚ) / 100 * ((10 : ℤ) : ℚ))⟩] :=
  ⟨Or.inr (Or.inl (by decide)),
   aggregator_silently_computes ⟨"A", 150, 10⟩ (Or.inr (Or.inl (by decide)))⟩

/-! Section C1: significance label versus the alpha threshold -/

/-- C1: for every alpha in (0, 1) and every statistical primitive record,
each produced test result labels `significance = "significant"` exactly
when its `p_value < alpha`, for all three test kinds: the two-group
z-test, the multi-group chi-square test, and every post-hoc pairwise
z-test. -/
theorem significance_iff_p_lt_alpha (S : StatPrims) (alpha : ℚ)
    (halpha : 0 < alpha ∧ alpha < 1) (data : List AggRow) :
    (∀ nr, test_two_groups S alpha data = .ok nr →
        (nr.2.significance = "significant" ↔ nr.2.p_value < alpha)) ∧
    (∀ nr, test_multiple_groups S alpha data = .ok nr →
        (nr.2.significance = "significant" ↔ nr.2.p_value < alpha)) ∧
    (∀ L, post_hoc_test S alpha data = .ok L →
        ∀ r ∈ L, (r.significance = "significant" ↔ r.p_value < alpha)) := by
  refine ⟨fun nr h => (test_two_groups_ok h).2.2,
          fun nr h => (test_multiple_groups_ok h).2.2.2.1,
          fun L h r hr => ?_⟩
  unfold post_hoc_test at h
  exact (postHocAux_ok S alpha data _ L h).2.2 r hr

/-- Witness for C1 at alpha = 1/2 on a concrete two-group dataset whose
two-group test result evaluates to statistic 0, p-value 0, label
"significant". -/
theorem significance_iff_p_lt_alpha_witness :
    (0 < (1/2 : ℚ) ∧ (1/2 : ℚ) < 1) ∧
    ((("Proportions Z-Test",
        ⟨0, 0, "significant", none⟩) : String × TestResult).2.significance = "significant" ↔
      (("Proportions Z-Test",
        ⟨0, 0, "significant", none⟩) : String × TestResult).2.p_value < 1/2) :=
  ⟨⟨one_half_pos, one_half_lt_one⟩,
   (significance_iff_p_lt_alpha primsTriv (1/2) ⟨one_half_pos, one_half_lt_one⟩ dataTriv).1
     ("Proportions Z-Test", ⟨0, 0, "significant", none⟩)
     (by simp [test_two_groups, firstUniques, proportions_ztest, zStat, groupPosSum,
               groupTotSum, primsTriv, dataTriv, one_half_pos])⟩

/-! Section C2: orchestrator dispatch -/

/-- C2: `run` first invokes the aggregator (the resulting dataset state is
`calculate_counts data`, and both testers receive exactly that aggregated
dataset), then dispatches on the number of distinct group labels: exactly
2 runs the two-group tester, labelled "Proportions Z-Test"; any other
count runs the multi-group tester, labelled "Chi-Square Test"; the outcome
is wrapped in the run-result record. -/
theorem run_dispatch (S : StatPrims) (alpha : ℚ) (data : List Row) :
    (run S alpha data).2 = calculate_counts data ∧
    ((firstUniques ((calculate_counts data).map (fun r => r.group))).length = 2 →
      (run S alpha data).1 =
        (test_two_groups S alpha (calculate_counts data)).map (fun nr => ⟨nr.1, nr.2⟩) ∧
      ∀ rr, (run S alpha data).1 = .ok rr → rr.test_used = "Proportions Z-Test") ∧
    ((firstUniques ((calculate_counts data).map (fun r => r.group))).length ≠ 2 →
      (run S alpha data).1 =
        (test_multiple_groups S alpha (calculate_counts data)).map (fun nr => ⟨nr.1, nr.2⟩) ∧
      ∀ rr, (run S alpha data).1 = .ok rr → rr.test_used = "Chi-Square Test") := by
  refine ⟨rfl, fun h2 => ⟨by simp [run, h2], fun rr hrr => ?_⟩,
          fun hn2 => ⟨by simp [run, hn2], fun rr hrr => ?_⟩⟩
  · simp only [run, h2, if_pos] at hrr
    cases htg : test_two_groups S alpha (calculate_counts data) with
    | error e => rw [htg] at hrr; exact Except.noConfusion hrr
    | ok nr =>
      rw [htg] at hrr
      simp only [Except.map] at hrr
      cases hrr
      exact (test_two_groups_ok htg).1
  · simp only [run, hn2, if_neg] at hrr
    cases htg : test_multiple_groups S alpha (calculate_counts data) with
    | error e => rw [htg] at hrr; exact Except.noConfusion hrr
    | ok nr =>
      rw [htg] at hrr
      simp only [Except.map] at hrr
      cases hrr
      exact (test_multiple_groups_ok htg).1

/-- Witness for C2 on a concrete two-group raw dataset. -/
theorem run_dispatch_witness :
    (firstUniques ((calculate_counts rowsAB).map (fun r => r.group))).length = 2 ∧
    (run primsSig 1 rowsAB).1 =
      (test_two_groups primsSig 1 (calculate_counts rowsAB)).map (fun nr => ⟨nr.1, nr.2⟩) :=
  ⟨by decide, ((run_dispatch primsSig 1 rowsAB).2.1 (by decide)).1⟩

/-! Section C4: post-hoc gating and pair enumeration -/

/-- The pair list of `itertools.combinations(l, 2)` has C(n, 2) entries. -/
theorem length_combinations2 {α : Type} :
    ∀ l : List α, (combinations2 l).length = l.length.choose 2
  | [] => rfl
  | x :: xs => by
    simp only [combinations2, List.length_append, List.length_map,
      length_combinations2 xs, List.length_cons]
    rw [Nat.choose_succ_succ, Nat.choose_one_right]

/-- C4: for a dataset with at least three distinct groups, the post-hoc
comparator is invoked exactly when the omnibus chi-square p-value is below
alpha (otherwise the result carries no pairwise field), and a successful
post-hoc pass produces exactly C(n, 2) pairwise results whose group-label
pairs enumerate the unordered pairs of distinct labels in first-appearance
combination order. -/
theorem post_hoc_gating (S : StatPrims) (alpha : ℚ) (data : List AggRow)
    (h3 : 3 ≤ (firstUniques (data.map (fun r => r.group))).length) :
    ((S.chifun (observedTable data)).2 < alpha →
      test_multiple_groups S alpha data =
        (post_hoc_test S alpha data).map
          (fun L => ("Chi-Square Test",
            ⟨(S.chifun (observedTable data)).1, (S.chifun (observedTable data)).2,
             "significant", some L⟩))) ∧
    (¬ (S.chifun (observedTable data)).2 < alpha →
      test_multiple_groups S alpha data =
        .ok ("Chi-Square Test",
          ⟨(S.chifun (observedTable data)).1, (S.chifun (observedTable data)).2,
           "not significant", none⟩)) ∧
    ((post_hoc_test S alpha data).map (fun L => L.map (fun r => (r.group1, r.group2))) =
      (post_hoc_test S alpha data).map
        (fun _ => combinations2 (firstUniques (data.map (fun r => r.group))))) ∧
    ((post_hoc_test S alpha data).map (fun L => L.length) =
      (post_hoc_test S alpha data).map
        (fun _ => ((firstUniques (data.map (fun r => r.group))).length).choose 2)) := by
  refine ⟨fun hc => ?_, fun hc => ?_, ?_, ?_⟩
  · simp only [test_multiple_groups, if_pos hc]
    cases hpost : post_hoc_test S alpha data with
    | error e => simp [Except.map]
    | ok L => simp [Except.map]
  · simp only [test_multiple_groups, if_neg hc]
  · cases hpost : post_hoc_test S alpha data with
    | error e => rfl
    | ok L =>
      have hpost' := hpost
      unfold post_hoc_test at hpost'
      obtain ⟨-, hlab, -⟩ := postHocAux_ok S alpha data _ L hpost'
      simp [Except.map, hlab]
  · cases hpost : post_hoc_test S alpha data with
    | error e => rfl
    | ok L =>
      have hpost' := hpost
      unfold post_hoc_test at hpost'
      obtain ⟨hlen, -, -⟩ := postHocAux_ok S alpha data _ L hpost'
      simp [Except.map, hlen, length_combinations2]

/-- Witness for C4 on a concrete three-group dataset with an
always-significant chi-square primitive. -/
theorem post_hoc_gating_witness :
    (3 ≤ (firstUniques (dataABC.map (fun r => r.group))).length) ∧
    ((primsSig.chifun (observedTable dataABC)).2 < 1) ∧
    test_multiple_groups primsSig 1 dataABC =
      (post_hoc_test primsSig 1 dataABC).map
        (fun L => ("Chi-Square Test",
          ⟨(primsSig.chifun (observedTable dataABC)).1,
           (primsSig.chifun (observedTable dataABC)).2, "significant", some L⟩)) :=
  ⟨by decide, by decide, (post_hoc_gating primsSig 1 dataABC (by decide)).1 (by decide)⟩

/-! Section C9: zero total trials on the z-test paths -/

/-- Both members of a pair produced by `combinations2` come from the input
list. -/
theorem mem_combinations2 {α : Type} :
    ∀ {l : List α} {p : α × α}, p ∈ combinations2 l → p.1 ∈ l ∧ p.2 ∈ l := by
  intro l
  induction l with
  | nil => intro p hp; simp [combinations2] at hp
  | cons x xs ih =>
    intro p hp
    simp only [combinations2, List.mem_append, List.mem_map] at hp
    rcases hp with ⟨y, hy, hpy⟩ | hp
    · subst hpy
      exact ⟨List.mem_cons_self _ _, List.mem_cons_of_mem _ hy⟩
    · obtain ⟨ha, hb⟩ := ih hp
      exact ⟨List.mem_cons_of_mem _ ha, List.mem_cons_of_mem _ hb⟩

/-- Every member of a list with at least two elements occurs in some pair
of `combinations2`. -/
theorem exists_pair_combinations2 {α : Type} {g : α} {l : List α}
    (hg : g ∈ l) (h2 : 2 ≤ l.length) :
    ∃ p ∈ combinations2 l, p.1 = g ∨ p.2 = g := by
  cases l with
  | nil => cases hg
  | cons x xs =>
    rcases List.mem_cons.mp hg with hgx | hgxs
    · cases xs with
      | nil => simp at h2
      | cons y ys =>
        refine ⟨(x, y), ?_, Or.inl hgx.symm⟩
        simp only [combinations2, List.mem_append, List.mem_map]
        exact Or.inl ⟨y, List.mem_cons_self _ _, rfl⟩
    · refine ⟨(x, g), ?_, Or.inr rfl⟩
      simp only [combinations2, List.mem_append, List.mem_map]
      exact Or.inl ⟨g, hgxs, rfl⟩

/-- A label occurring in the dataset has a first row. -/
theorem firstRow_isSome_of_mem {data : List AggRow} {g : String}
    (h : g ∈ data.map (fun r => r.group)) : (firstRow data g).isSome := by
  obtain ⟨r, hr, hrg⟩ := List.mem_map.mp h
  have hmem : r ∈ data.filter (fun r => r.group = g) :=
    List.mem_filter.mpr ⟨hr, by simp [hrg]⟩
  unfold firstRow
  cases hfil : data.filter (fun r => r.group = g) with
  | nil => rw [hfil] at hmem; cases hmem
  | cons a as => rfl

/-- A pairwise test whose pair has a first row with zero total trials
fails with the computation error. -/
theorem pairTest_error_of_zero {S : StatPrims} {alpha : ℚ} {data : List AggRow}
    {g1 g2 : String}
    (h1 : (firstRow data g1).isSome) (h2 : (firstRow data g2).isSome)
    (hz : (∃ r, firstRow data g1 = some r ∧ r.total = 0) ∨
          (∃ r, firstRow data g2 = some r ∧ r.total = 0)) :
    pairTest S alpha data g1 g2 = .error .computationError := by
  obtain ⟨r1, hr1⟩ := Option.isSome_iff_exists.mp h1
  obtain ⟨r2, hr2⟩ := Option.isSome_iff_exists.mp h2
  have hz0 : r1.total = 0 ∨ r2.total = 0 := by
    rcases hz with ⟨r, hr, h0⟩ | ⟨r, hr, h0⟩
    · rw [hr1] at hr; cases hr; exact Or.inl h0
    · rw [hr2] at hr; cases hr; exact Or.inr h0
  unfold pairTest
  simp only [hr1, hr2, proportions_ztest, if_pos hz0]

/-- A pairwise test over a pair with first rows can fail only with the
computation error. -/
theorem pairTest_error_kind {S : StatPrims} {alpha : ℚ} {data : List AggRow}
    {g1 g2 : String} {e : ABError}
    (h1 : (firstRow data g1).isSome) (h2 : (firstRow data g2).isSome)
    (h : pairTest S alpha data g1 g2 = .error e) : e = .computationError := by
  obtain ⟨r1, hr1⟩ := Option.isSome_iff_exists.mp h1
  obtain ⟨r2, hr2⟩ := Option.isSome_iff_exists.mp h2
  unfold pairTest at h
  simp only [hr1, hr2] at h
  split at h
  · rename_i e' heq
    cases h
    unfold proportions_ztest at heq
    split at heq
    · cases heq; rfl
    · exact Except.noConfusion heq
  · exact Except.noConfusion h

/-- The post-hoc loop fails with the computation error as soon as some
listed pair involves a group whose first row has zero total trials. -/
theorem postHocAux_error_of_zero (S : StatPrims) (alpha : ℚ) (data : List AggRow) :
    ∀ ps : List (String × String),
      (∀ q ∈ ps, (firstRow data q.1).isSome ∧ (firstRow data q.2).isSome) →
      (∃ q ∈ ps, (∃ r, firstRow data q.1 = some r ∧ r.total = 0) ∨
                 (∃ r, firstRow data q.2 = some r ∧ r.total = 0)) →
      postHocAux S alpha data ps = .error .computationError := by
  intro ps
  induction ps with
  | nil =>
    intro _ hex
    obtain ⟨q, hq, -⟩ := hex
    cases hq
  | cons q0 ps ih =>
    intro hsome hex
    obtain ⟨hs1, hs2⟩ := hsome q0 (List.mem_cons_self _ _)
    unfold postHocAux
    obtain ⟨q, hqmem, hz⟩ := hex
    rcases List.mem_cons.mp hqmem with hq | hq
    · subst hq
      simp only [pairTest_error_of_zero hs1 hs2 hz]
    · cases hpair : pairTest S alpha data q0.1 q0.2 with
      | error e =>
        have he : e = ABError.computationError := pairTest_error_kind hs1 hs2 hpair
        simp only [hpair, he]
      | ok r =>
        simp only [hpair,
          ih (fun q' hq' => hsome q' (List.mem_cons_of_mem _ hq')) ⟨q, hq, hz⟩]

/-- The two-group tester on a dataset whose two distinct groups include
one with zero summed total trials fails with the computation error. -/
theorem two_groups_zero_total {S : StatPrims} {alpha : ℚ} {data : List AggRow}
    {a b : String}
    (huniq : firstUniques (data.map (fun r => r.group)) = [a, b])
    (hz : groupTotSum data a = 0 ∨ groupTotSum data b = 0) :
    test_two_groups S alpha data = .error .computationError := by
  unfold test_two_groups
  simp only [huniq, proportions_ztest, if_pos hz]

/-- The post-hoc comparator on a dataset with at least two distinct
groups, one of whose first rows has zero total trials, fails with the
computation error. -/
theorem post_hoc_zero_total {S : StatPrims} {alpha : ℚ} {data : List AggRow} {g : String}
    (hmem : g ∈ firstUniques (data.map (fun r => r.group)))
    (hlen : 2 ≤ (firstUniques (data.map (fun r => r.group))).length)
    (hz : ∃ r, firstRow data g = some r ∧ r.total = 0) :
    post_hoc_test S alpha data = .error .computationError := by
  unfold post_hoc_test
  obtain ⟨p, hp, hside⟩ := exists_pair_combinations2 hmem hlen
  refine postHocAux_error_of_zero S alpha data _ (fun q hq => ?_) ⟨p, hp, ?_⟩
  · obtain ⟨h1, h2⟩ := mem_combinations2 hq
    exact ⟨firstRow_isSome_of_mem (mem_firstUniques.mp h1),
           firstRow_isSome_of_mem (mem_firstUniques.mp h2)⟩
  · rcases hside with hside | hside
    · exact Or.inl (hside ▸ hz)
    · exact Or.inr (hside ▸ hz)

/-- C9: a group with zero total trials makes the proportion z-test paths
fail with the computation error, which propagates unhandled: the two-group
tester fails when either summed total is zero; the post-hoc comparator
fails when some distinct group's first row has zero total trials, and a
significant omnibus test then makes the whole multi-group tester fail; on
the two-group path `run` surfaces the same error to its caller instead of
returning a result. -/
theorem zero_total_computation_error (S : StatPrims) (alpha : ℚ) (data : List AggRow)
    (rows : List Row) (a b g : String) :
    (firstUniques (data.map (fun r => r.group)) = [a, b] →
      groupTotSum data a = 0 ∨ groupTotSum data b = 0 →
      test_two_groups S alpha data = .error .computationError) ∧
    (g ∈ firstUniques (data.map (fun r => r.group)) →
      2 ≤ (firstUniques (data.map (fun r => r.group))).length →
      (∃ r, firstRow data g = some r ∧ r.total = 0) →
      post_hoc_test S alpha data = .error .computationError ∧
      ((S.chifun (observedTable data)).2 < alpha →
        test_multiple_groups S alpha data = .error .computationError)) ∧
    (firstUniques ((calculate_counts rows).map (fun r => r.group)) = [a, b] →
      groupTotSum (calculate_counts rows) a = 0 ∨ groupTotSum (calculate_counts rows) b = 0 →
      (run S alpha rows).1 = .error .computationError) := by
  refine ⟨fun huniq hz => two_groups_zero_total huniq hz,
          fun hmem hlen hz => ⟨post_hoc_zero_total hmem hlen hz, fun hsig => ?_⟩,
          fun huniq hz => ?_⟩
  · simp only [test_multiple_groups, if_pos hsig, post_hoc_zero_total hmem hlen hz]
  · have hlen2 : (firstUniques ((calculate_counts rows).map (fun r => r.group))).length = 2 := by
      rw [huniq]; rfl
    simp only [run, hlen2, if_pos, two_groups_zero_total huniq hz, Except.map]

/-- Witness for C9: concrete zero-total datasets on the two-group path,
the post-hoc path, and through the orchestrator. -/
theorem zero_total_computation_error_witness :
    test_two_groups primsSig 1 dataZero = .error .computationError ∧
    post_hoc_test primsSig 1 dataZero3 = .error .computationError ∧
    (run primsSig 1 rowsZero).1 = .error .computationError :=
  ⟨(zero_total_computation_error primsSig 1 dataZero [] "A" "B" "A").1
     (by decide) (by decide),
   ((zero_total_computation_error primsSig 1 dataZero3 [] "A" "B" "C").2.1
     (by decide) (by decide) ⟨⟨"C", 0, 0, 0⟩, by decide, by decide⟩).1,
   (zero_total_computation_error primsSig 1 dataZero rowsZero "A" "B" "A").2.2
     (by decide) (by decide)⟩

/-! Section C8: aggregator round trip on exact rates -/

/-- C8: when the rate is exactly `100 * positive / total`, the aggregator
recovers `positive` exactly. -/
theorem aggregator_round_trip (g : String) (positive total : ℤ)
    (hpos : 0 ≤ positive) (htot : 0 < total) (hle : positive ≤ total) :
    calculate_counts [⟨g, 100 * (positive : ℚ) / (total : ℚ), total⟩] =
      [⟨g, 100 * (positive : ℚ) / (total : ℚ), total, positive⟩] := by
  have ht : (total : ℚ) ≠ 0 := by
    exact_mod_cast htot.ne'
  have key : 100 * (positive : ℚ) / (total : ℚ) / 100 * ((total : ℤ) : ℚ) = ((positive : ℤ) : ℚ) := by
    field_simp
    ring
  simp [calculate_counts, key, roundHalfEven_intCast]

/-- Witness for C8 at positive = 3, total = 4 (rate 75). -/
theorem aggregator_round_trip_witness :
    ((0 : ℤ) ≤ 3 ∧ (0 : ℤ) < 4 ∧ (3 : ℤ) ≤ 4) ∧
    calculate_counts [⟨"A", 100 * ((3 : ℤ) : ℚ) / ((4 : ℤ) : ℚ), 4⟩] =
      [⟨"A", 100 * ((3 : ℤ) : ℚ) / ((4 : ℤ) : ℚ), 4, 3⟩] :=
  ⟨⟨by decide, by decide, by decide⟩,
   aggregator_round_trip "A" 3 4 (by decide) (by decide) (by decide)⟩

/-! Section C6: first-row versus summed-row aggregation -/

/-- C6: when a group occurs in several rows, the post-hoc comparator
feeds only the FIRST matching row's positive count and total into its
pairwise z-test, whereas the two-group tester and the multi-group
contingency table use the per-group SUMS over all rows: the first row of
group g is r1, every successful pairwise statistic for a pair led by g is
computed from r1's fields, the per-group sums decompose as first row plus
the remaining rows, the contingency table carries the summed entry, and
the two-group statistic is computed from the summed values. -/
theorem first_row_vs_summed (data : List AggRow) (g g2 : String) (r1 r2 : AggRow)
    (rest : List AggRow)
    (hg : data.filter (fun r => r.group = g) = r1 :: rest)
    (hg2 : firstRow data g2 = some r2)
    (hn1 : r1.total ≠ 0) (hn2 : r2.total ≠ 0) :
    firstRow data g = some r1 ∧
    (∀ (S : StatPrims) (alpha : ℚ) (pr : PairwiseResult),
      pairTest S alpha data g g2 = .ok pr →
      pr.statistic = zStat S r1.positive_count r1.total r2.positive_count r2.total) ∧
    groupPosSum data g = r1.positive_count + (rest.map (fun r => r.positive_count)).sum ∧
    groupTotSum data g = r1.total + (rest.map (fun r => r.total)).sum ∧
    (g ∈ sortedUniques data →
      (groupPosSum data g, groupTotSum data g - groupPosSum data g) ∈ observedTable data) ∧
    (∀ (S : StatPrims) (alpha : ℚ) (nr : String × TestResult),
      firstUniques (data.map (fun r => r.group)) = [g, g2] →
      test_two_groups S alpha data = .ok nr →
      nr.2.statistic = zStat S (groupPosSum data g) (groupTotSum data g)
        (groupPosSum data g2) (groupTotSum data g2)) := by
  have hfr : firstRow data g = some r1 := by
    unfold firstRow
    rw [hg]
    rfl
  refine ⟨hfr, fun S alpha pr hpr => ?_, ?_, ?_, fun hmem => ?_, fun S alpha nr huniq hnr => ?_⟩
  · unfold pairTest at hpr
    simp only [hfr, hg2] at hpr
    have hcond : ¬ (r1.total = 0 ∨ r2.total = 0) := not_or.mpr ⟨hn1, hn2⟩
    simp only [proportions_ztest, if_neg hcond] at hpr
    cases hpr
    rfl
  · unfold groupPosSum
    rw [hg]
    simp
  · unfold groupTotSum
    rw [hg]
    simp
  · exact List.mem_map_of_mem _ hmem
  · unfold test_two_groups at hnr
    simp only [huniq] at hnr
    split at hnr
    · exact Except.noConfusion hnr
    · rename_i sp heq
      cases hnr
      unfold proportions_ztest at heq
      split at heq
      · exact Except.noConfusion heq
      · cases heq
        rfl

/-- Witness for C6 on a dataset where group A has two rows: the first-row
extraction and the summed decomposition at concrete values. -/
theorem first_row_vs_summed_witness :
    firstRow dataDup "A" = some ⟨"A", 30, 10, 3⟩ ∧
    groupPosSum dataDup "A" =
      (3 : ℤ) + ([(⟨"A", 25, 20, 5⟩ : AggRow)].map (fun r => r.positive_count)).sum ∧
    groupTotSum dataDup "A" =
      (10 : ℤ) + ([(⟨"A", 25, 20, 5⟩ : AggRow)].map (fun r => r.total)).sum :=
  have h := first_row_vs_summed dataDup "A" "B" ⟨"A", 30, 10, 3⟩ ⟨"B", 35, 20, 7⟩
    [⟨"A", 25, 20, 5⟩] (by decide) (by decide) (by decide) (by decide)
  ⟨h.1, h.2.2.1, h.2.2.2.1⟩

/-! Section C7: two-group symmetry under swapping the group order -/

/-- The pooled z statistic is antisymmetric under swapping the two
(count, nobs) pairs: the pooled variance argument is symmetric, the
numerator changes sign. -/
theorem zStat_swap (S : StatPrims) (c1 n1 c2 n2 : ℤ) :
    zStat S c2 n2 c1 n1 = - zStat S c1 n1 c2 n2 := by
  unfold zStat
  have h : ((c2 : ℚ) + (c1 : ℚ)) / ((n2 : ℚ) + (n1 : ℚ)) *
        (1 - ((c2 : ℚ) + (c1 : ℚ)) / ((n2 : ℚ) + (n1 : ℚ))) *
        (1 / (n2 : ℚ) + 1 / (n1 : ℚ)) =
      ((c1 : ℚ) + (c2 : ℚ)) / ((n1 : ℚ) + (n2 : ℚ)) *
        (1 - ((c1 : ℚ) + (c2 : ℚ)) / ((n1 : ℚ) + (n2 : ℚ))) *
        (1 / (n1 : ℚ) + 1 / (n2 : ℚ)) := by
    ring
  rw [h, ← neg_div, neg_sub]

/-- C7: running the two-group tester on the same per-group data with the
two groups in the opposite order yields the same p-value and the same
significance label, and negates the z statistic: the swapped result is
exactly the original result with the statistic's sign flipped. -/
theorem two_group_swap_symmetry (S : StatPrims) (alpha : ℚ) (d1 d2 : List AggRow)
    (a b : String)
    (h1 : firstUniques (d1.map (fun r => r.group)) = [a, b])
    (h2 : firstUniques (d2.map (fun r => r.group)) = [b, a])
    (hpa : groupPosSum d2 a = groupPosSum d1 a) (hta : groupTotSum d2 a = groupTotSum d1 a)
    (hpb : groupPosSum d2 b = groupPosSum d1 b) (htb : groupTotSum d2 b = groupTotSum d1 b)
    (hna : groupTotSum d1 a ≠ 0) (hnb : groupTotSum d1 b ≠ 0) :
    test_two_groups S alpha d2 =
      (test_two_groups S alpha d1).map
        (fun nr => (nr.1, ⟨-nr.2.statistic, nr.2.p_value, nr.2.significance, nr.2.pairwise⟩)) := by
  unfold test_two_groups
  simp only [h1, h2, hpa, hta, hpb, htb, proportions_ztest,
    if_neg (not_or.mpr ⟨hnb, hna⟩), if_neg (not_or.mpr ⟨hna, hnb⟩), Except.map]
  rw [zStat_swap S (groupPosSum d1 a) (groupTotSum d1 a) (groupPosSum d1 b) (groupTotSum d1 b),
    abs_neg]

/-- Witness for C7 on the concrete two-group dataset and its reversal. -/
theorem two_group_swap_symmetry_witness :
    test_two_groups primsSig 1 dataBA =
      (test_two_groups primsSig 1 dataAB).map
        (fun nr => (nr.1, ⟨-nr.2.statistic, nr.2.p_value, nr.2.significance, nr.2.pairwise⟩)) :=
  two_group_swap_symmetry primsSig 1 dataAB dataBA "A" "B" (by decide) (by decide)
    (by decide) (by decide) (by decide) (by decide) (by decide) (by decide)

/-! Section C10: the only dataset mutation is the derived count column -/

/-- C10: across a whole `run`, the only change to the caller's dataset is
the written `positive_count` column: stripping that column from the
post-run dataset state restores the input dataset exactly, with the same
number of rows, the same order, and unchanged group labels, rates and
totals. -/
theorem run_frame (S : StatPrims) (alpha : ℚ) (data : List Row) :
    ((run S alpha data).2).map (fun r => Row.mk r.group r.rate r.total) = data := by
  show (calculate_counts data).map (fun r => Row.mk r.group r.rate r.total) = data
  induction data with
  | nil => rfl
  | cons r rs ih =>
    simp only [calculate_counts, List.map_cons] at ih ⊢
    rw [ih]

end ABTest
